import Mathlib

/-!
Verification of the Kanban board core (`apps/api/src/services/board.service.ts`
together with the Prisma schema `prisma/schema.prisma`).

The persisted layout is three relations: boards(id PK, title, createdAt),
columns(id PK, title, order, boardId FK -> boards.id), cards(id PK, content,
order, columnId FK -> columns.id).  We embed the store as three lists of rows
and each Prisma call as a pure state transition: `create` fails on a primary
key collision or a missing foreign key (the constraints SQLite enforces),
otherwise appends the row.  Service methods thread the store explicitly; a
thrown exception is an `Except.error` paired with the store as committed so
far (the service uses no transaction, so writes before a failure persist).
-/

namespace Kanban

/-- A row of the `boards` relation.  `createdAt` (a Prisma `DateTime`) is
modelled as a numeric timestamp. -/
structure BoardRow where
  id : String
  title : String
  createdAt : Nat
  deriving DecidableEq

/-- A row of the `columns` relation. -/
structure ColumnRow where
  id : String
  title : String
  order : Int
  boardId : String
  deriving DecidableEq

/-- A row of the `cards` relation. -/
structure CardRow where
  id : String
  content : String
  order : Int
  columnId : String
  deriving DecidableEq

/-- The whole database state: the three relations. -/
structure Store where
  boards : List BoardRow
  columns : List ColumnRow
  cards : List CardRow
  deriving DecidableEq

/-- Errors raised by the storage layer (Prisma/SQLite constraint failures). -/
inductive DbError where
  | uniqueViolation
  | foreignKeyViolation
  deriving DecidableEq

/-- A thrown JavaScript `Error`, carrying its message. -/
structure JsError where
  message : String
  deriving DecidableEq

/-- `prisma.board.create({data})`: fails if the primary key already exists,
otherwise appends the row. -/
def boardCreate (s : Store) (r : BoardRow) : Except DbError Store :=
  if s.boards.any (fun b => b.id == r.id) then
    .error .uniqueViolation
  else
    .ok { s with boards := s.boards ++ [r] }

/-- `prisma.column.create({data})`: fails on a duplicate primary key or a
`boardId` that references no board, otherwise appends the row. -/
def columnCreate (s : Store) (r : ColumnRow) : Except DbError Store :=
  if s.columns.any (fun c => c.id == r.id) then
    .error .uniqueViolation
  else if s.boards.any (fun b => b.id == r.boardId) then
    .ok { s with columns := s.columns ++ [r] }
  else
    .error .foreignKeyViolation

/-- The value `BoardService.createBoard` resolves with: `{id, title, createdAt}`. -/
structure CreateBoardResult where
  id : String
  title : String
  createdAt : Nat
  deriving DecidableEq

/-- `data.title || 'My Kanban Board'`: JavaScript `||` takes the default when
the title is absent or the empty string (both falsy). -/
def defaultTitle (title? : Option String) : String :=
  match title? with
  | none => "My Kanban Board"
  | some t => if t = "" then "My Kanban Board" else t

/-- `BoardService.createBoard`.  The nanoid values minted for the board and
the three default columns are passed in as `boardId`, `c0`, `c1`, `c2`;
`now` is the creation timestamp Prisma defaults `createdAt` to.  The board
row and the three column rows (Todo/In Progress/Done at orders 0/1/2) are
created by four separate awaited calls with no surrounding transaction, so
on a failure the writes already made stay committed and the error
propagates. -/
def createBoard (s : Store) (boardId c0 c1 c2 : String) (now : Nat)
    (title? : Option String) : Except DbError CreateBoardResult × Store :=
  let title := defaultTitle title?
  match boardCreate s { id := boardId, title := title, createdAt := now } with
  | .error e => (.error e, s)
  | .ok s1 =>
    match columnCreate s1 { id := c0, title := "Todo", order := 0, boardId := boardId } with
    | .error e => (.error e, s1)
    | .ok s2 =>
      match columnCreate s2 { id := c1, title := "In Progress", order := 1, boardId := boardId } with
      | .error e => (.error e, s2)
      | .ok s3 =>
        match columnCreate s3 { id := c2, title := "Done", order := 2, boardId := boardId } with
        | .error e => (.error e, s3)
        | .ok s4 => (.ok { id := boardId, title := title, createdAt := now }, s4)

/-- A card as returned by `getBoardById`. -/
structure CardData where
  id : String
  content : String
  order : Int
  deriving DecidableEq

/-- A column as returned by `getBoardById`. -/
structure ColumnData where
  id : String
  title : String
  order : Int
  cards : List CardData
  deriving DecidableEq

/-- The full tree returned by `getBoardById`. -/
structure BoardData where
  id : String
  title : String
  createdAt : Nat
  columns : List ColumnData
  deriving DecidableEq

/-- Insert an element into a list sorted ascending on the key `f`. -/
def insertByOrder {α : Type} (f : α → Int) (x : α) : List α → List α
  | [] => [x]
  | y :: ys => if f x ≤ f y then x :: y :: ys else y :: insertByOrder f x ys

/-- Sort a list ascending on the key `f`; this embeds Prisma's
`orderBy: { order: 'asc' }`. -/
def sortByOrder {α : Type} (f : α → Int) : List α → List α
  | [] => []
  | x :: xs => insertByOrder f x (sortByOrder f xs)

/-- `BoardService.getBoardById`: `findUnique` on the board id, including the
board's columns ordered ascending by `order`, each with its cards ordered
ascending by `order`, then the field-by-field projection the service
performs. -/
def getBoardById (s : Store) (id : String) : Option BoardData :=
  match s.boards.find? (fun b => b.id == id) with
  | none => none
  | some b =>
    some { id := b.id, title := b.title, createdAt := b.createdAt,
           columns :=
             (sortByOrder (fun c => c.order)
                 (s.columns.filter (fun c => c.boardId == b.id))).map
               (fun c =>
                 { id := c.id, title := c.title, order := c.order,
                   cards :=
                     (sortByOrder (fun k => k.order)
                         (s.cards.filter (fun k => k.columnId == c.id))).map
                       (fun k => { id := k.id, content := k.content, order := k.order }) }) }

/-- The `BoardUpdateData` payload of `updateBoard`: the desired title and the
desired columns, each column carrying its desired cards.  In the source the
column/card shapes are inline object types with exactly the fields of
`ColumnData`/`CardData`, so those are reused here. -/
structure BoardUpdateData where
  title : String
  columns : List ColumnData
  deriving DecidableEq

/-- The message of the error `BoardService.updateBoard` throws. -/
def notImplementedMessage : String := "Not implemented yet - will be driven by tests"

/-- `BoardService.updateBoard`: the body is a stub that throws
`new Error('Not implemented yet - will be driven by tests')` before touching
the store, so every call returns that error and leaves the state unchanged. -/
def updateBoard (s : Store) (id : String) (d : BoardUpdateData) :
    Except JsError Unit × Store :=
  (.error { message := notImplementedMessage }, s)

/-- The empty database: the state of a fresh SQLite file after migration. -/
def emptyStore : Store := { boards := [], columns := [], cards := [] }

/-- States reachable from the empty database through the service's public
operations.  `getBoardById` reads without writing, so only `createBoard`
(with arbitrary minted ids, timestamp and title, and including its failing
executions, whose partially committed state is `.2`) and `updateBoard`
change — or in the latter case, fail to change — the store. -/
inductive Reachable : Store → Prop where
  | empty : Reachable emptyStore
  | create {s : Store} (boardId c0 c1 c2 : String) (now : Nat) (title? : Option String) :
      Reachable s → Reachable (createBoard s boardId c0 c1 c2 now title?).2
  | update {s : Store} (id : String) (d : BoardUpdateData) :
      Reachable s → Reachable (updateBoard s id d).2

/-- Sibling `order` values are pairwise distinct: any two column rows of one
board differ in `order`, and any two card rows of one column differ in
`order`. -/
def siblingOrdersDistinct (s : Store) : Prop :=
  s.columns.Pairwise (fun c d => c.boardId = d.boardId → c.order ≠ d.order) ∧
  s.cards.Pairwise (fun c d => c.columnId = d.columnId → c.order ≠ d.order)

/-- The induction invariant for reachable states: the card relation is empty
(no public operation ever inserts a card, since `updateBoard` is a stub),
every column row references an existing board, and sibling column `order`
values are pairwise distinct. -/
def StoreInv (s : Store) : Prop :=
  s.cards = [] ∧
  (∀ c ∈ s.columns, ∃ b ∈ s.boards, b.id = c.boardId) ∧
  s.columns.Pairwise (fun c d => c.boardId = d.boardId → c.order ≠ d.order)

/-- A 101-character title, used to probe the (absent) title-length validation. -/
def longTitle : String := String.mk (List.replicate 101 'a')

/-! ### Helper lemmas about the storage primitives -/

theorem any_field_eq_false {α : Type} {l : List α} {f : α → String} {x : String}
    (h : ∀ a ∈ l, f a ≠ x) : (l.any fun a => f a == x) = false := by
  by_contra hc
  rw [Bool.not_eq_false, List.any_eq_true] at hc
  obtain ⟨a, hm, hbeq⟩ := hc
  exact h a hm (eq_of_beq hbeq)

theorem any_field_eq_true {α : Type} {l : List α} {f : α → String} {x : String}
    (a : α) (hm : a ∈ l) (hx : f a = x) : (l.any fun b => f b == x) = true :=
  List.any_eq_true.mpr ⟨a, hm, by simp [hx]⟩

theorem filter_field_eq_nil {α : Type} {l : List α} {f : α → String} {x : String}
    (h : ∀ a ∈ l, f a ≠ x) : (l.filter fun a => f a == x) = [] := by
  induction l with
  | nil => rfl
  | cons a as ih =>
    have ha : (f a == x) = false := by
      simpa using h a (List.mem_cons_self a as)
    simp only [List.filter_cons, ha, Bool.false_eq_true, if_false]
    exact ih fun b hb => h b (List.mem_cons_of_mem a hb)

theorem find?_field_eq_none {α : Type} {l : List α} {f : α → String} {x : String}
    (h : ∀ a ∈ l, f a ≠ x) : (l.find? fun a => f a == x) = none :=
  List.find?_eq_none.mpr fun a hm => by simp [h a hm]

theorem find?_field_append_last {α : Type} {l : List α} {f : α → String} {x : String}
    (b : α) (h : ∀ a ∈ l, f a ≠ x) (hb : f b = x) :
    ((l ++ [b]).find? fun a => f a == x) = some b := by
  rw [List.find?_append, find?_field_eq_none h]
  simp [List.find?_cons_of_pos, hb]

theorem boardCreate_ok {s : Store} {r : BoardRow}
    (h : ∀ b ∈ s.boards, b.id ≠ r.id) :
    boardCreate s r = .ok { s with boards := s.boards ++ [r] } := by
  simp [boardCreate, any_field_eq_false h]

theorem boardCreate_err {s : Store} {r : BoardRow}
    (b : BoardRow) (hm : b ∈ s.boards) (hid : b.id = r.id) :
    boardCreate s r = .error .uniqueViolation := by
  simp [boardCreate, any_field_eq_true b hm hid]

theorem columnCreate_ok {s : Store} {r : ColumnRow}
    (h1 : ∀ c ∈ s.columns, c.id ≠ r.id)
    (b : BoardRow) (hb : b ∈ s.boards) (hid : b.id = r.boardId) :
    columnCreate s r = .ok { s with columns := s.columns ++ [r] } := by
  simp [columnCreate, any_field_eq_false h1, any_field_eq_true b hb hid]

theorem columnCreate_err_dup {s : Store} {r : ColumnRow}
    (c : ColumnRow) (hm : c ∈ s.columns) (hid : c.id = r.id) :
    columnCreate s r = .error .uniqueViolation := by
  simp [columnCreate, any_field_eq_true c hm hid]

/-! ### Helper lemmas about sorting -/

theorem mem_insertByOrder {α : Type} {f : α → Int} {x y : α} {l : List α} :
    y ∈ insertByOrder f x l ↔ y = x ∨ y ∈ l := by
  induction l with
  | nil => simp [insertByOrder]
  | cons a as ih =>
    simp only [insertByOrder]
    split
    · simp [List.mem_cons]
    · simp only [List.mem_cons, ih]
      tauto

theorem pairwise_le_insertByOrder {α : Type} {f : α → Int} {x : α} {l : List α}
    (h : l.Pairwise fun a b => f a ≤ f b) :
    (insertByOrder f x l).Pairwise fun a b => f a ≤ f b := by
  induction l with
  | nil => simp [insertByOrder]
  | cons a as ih =>
    rw [List.pairwise_cons] at h
    obtain ⟨ha, has⟩ := h
    simp only [insertByOrder]
    split
    · rename_i hle
      rw [List.pairwise_cons]
      refine ⟨fun b hb => ?_, List.pairwise_cons.mpr ⟨ha, has⟩⟩
      rcases List.mem_cons.mp hb with rfl | hb
      · exact hle
      · exact le_trans hle (ha b hb)
    · rename_i hgt
      rw [List.pairwise_cons]
      refine ⟨fun b hb => ?_, ih has⟩
      rcases mem_insertByOrder.mp hb with rfl | hb
      · omega
      · exact ha b hb

theorem pairwise_le_sortByOrder {α : Type} (f : α → Int) (l : List α) :
    (sortByOrder f l).Pairwise fun a b => f a ≤ f b := by
  induction l with
  | nil => simp [sortByOrder]
  | cons a as ih => exact pairwise_le_insertByOrder ih

/-! ### The successful run of `createBoard` -/

theorem createBoard_ok (s : Store) (boardId c0 c1 c2 : String) (now : Nat)
    (title? : Option String)
    (hb : ∀ b ∈ s.boards, b.id ≠ boardId)
    (hc0 : ∀ c ∈ s.columns, c.id ≠ c0)
    (hc1 : ∀ c ∈ s.columns, c.id ≠ c1)
    (hc2 : ∀ c ∈ s.columns, c.id ≠ c2)
    (h01 : c0 ≠ c1) (h02 : c0 ≠ c2) (h12 : c1 ≠ c2) :
    createBoard s boardId c0 c1 c2 now title? =
      (.ok { id := boardId, title := defaultTitle title?, createdAt := now },
       { boards := s.boards ++ [{ id := boardId, title := defaultTitle title?, createdAt := now }],
         columns := s.columns ++
           [{ id := c0, title := "Todo", order := 0, boardId := boardId },
            { id := c1, title := "In Progress", order := 1, boardId := boardId },
            { id := c2, title := "Done", order := 2, boardId := boardId }],
         cards := s.cards }) := by
  have e1 := boardCreate_ok (r := { id := boardId, title := defaultTitle title?, createdAt := now }) hb
  have hmem : ({ id := boardId, title := defaultTitle title?, createdAt := now } : BoardRow) ∈
      s.boards ++ [{ id := boardId, title := defaultTitle title?, createdAt := now }] :=
    List.mem_append_right _ (List.mem_singleton_self _)
  have hc1' : ∀ c ∈ s.columns ++ [({ id := c0, title := "Todo", order := 0, boardId := boardId } : ColumnRow)],
      c.id ≠ c1 := by
    intro c hc
    rcases List.mem_append.mp hc with h | h
    · exact hc1 c h
    · rcases List.mem_singleton.mp h with rfl
      simpa using h01
  have hc2' : ∀ c ∈ (s.columns ++ [({ id := c0, title := "Todo", order := 0, boardId := boardId } : ColumnRow)]) ++
      [({ id := c1, title := "In Progress", order := 1, boardId := boardId } : ColumnRow)],
      c.id ≠ c2 := by
    intro c hc
    rcases List.mem_append.mp hc with h | h
    · rcases List.mem_append.mp h with h' | h'
      · exact hc2 c h'
      · rcases List.mem_singleton.mp h' with rfl
        simpa using h02
    · rcases List.mem_singleton.mp h with rfl
      simpa using h12
  have e2 : columnCreate
      { boards := s.boards ++ [{ id := boardId, title := defaultTitle title?, createdAt := now }],
        columns := s.columns, cards := s.cards }
      { id := c0, title := "Todo", order := 0, boardId := boardId } =
      .ok { boards := s.boards ++ [{ id := boardId, title := defaultTitle title?, createdAt := now }],
            columns := s.columns ++ [{ id := c0, title := "Todo", order := 0, boardId := boardId }],
            cards := s.cards } :=
    columnCreate_ok hc0 _ hmem rfl
  have e3 : columnCreate
      { boards := s.boards ++ [{ id := boardId, title := defaultTitle title?, createdAt := now }],
        columns := s.columns ++ [{ id := c0, title := "Todo", order := 0, boardId := boardId }],
        cards := s.cards }
      { id := c1, title := "In Progress", order := 1, boardId := boardId } =
      .ok { boards := s.boards ++ [{ id := boardId, title := defaultTitle title?, createdAt := now }],
            columns := (s.columns ++ [{ id := c0, title := "Todo", order := 0, boardId := boardId }]) ++
              [{ id := c1, title := "In Progress", order := 1, boardId := boardId }],
            cards := s.cards } :=
    columnCreate_ok hc1' _ hmem rfl
  have e4 : columnCreate
      { boards := s.boards ++ [{ id := boardId, title := defaultTitle title?, createdAt := now }],
        columns := (s.columns ++ [{ id := c0, title := "Todo", order := 0, boardId := boardId }]) ++
          [{ id := c1, title := "In Progress", order := 1, boardId := boardId }],
        cards := s.cards }
      { id := c2, title := "Done", order := 2, boardId := boardId } =
      .ok { boards := s.boards ++ [{ id := boardId, title := defaultTitle title?, createdAt := now }],
            columns := ((s.columns ++ [{ id := c0, title := "Todo", order := 0, boardId := boardId }]) ++
              [{ id := c1, title := "In Progress", order := 1, boardId := boardId }]) ++
              [{ id := c2, title := "Done", order := 2, boardId := boardId }],
            cards := s.cards } :=
    columnCreate_ok hc2' _ hmem rfl
  simp only [createBoard, e1, e2, e3, e4]
  simp [List.append_assoc]

/-! ### Inversion lemmas for the storage primitives -/

theorem boardCreate_ok_inv {s : Store} {r : BoardRow} {s' : Store}
    (h : boardCreate s r = .ok s') :
    s' = { s with boards := s.boards ++ [r] } ∧ ∀ b ∈ s.boards, b.id ≠ r.id := by
  unfold boardCreate at h
  split at h
  · cases h
  · rename_i hany
    refine ⟨by cases h; rfl, fun b hb heq => ?_⟩
    exact hany (any_field_eq_true b hb heq)

theorem columnCreate_ok_inv {s : Store} {r : ColumnRow} {s' : Store}
    (h : columnCreate s r = .ok s') :
    s' = { s with columns := s.columns ++ [r] } ∧
      (∀ c ∈ s.columns, c.id ≠ r.id) ∧ ∃ b ∈ s.boards, b.id = r.boardId := by
  unfold columnCreate at h
  split at h
  · cases h
  · rename_i hany
    split at h
    · rename_i hfk
      obtain ⟨b, hb, hbeq⟩ := List.any_eq_true.mp hfk
      refine ⟨by cases h; rfl, fun c hc heq => hany (any_field_eq_true c hc heq),
        b, hb, eq_of_beq hbeq⟩
    · cases h

/-! ### The invariant holds in every reachable state -/

theorem no_columns_of_fresh_board {s : Store}
    (hfk : ∀ c ∈ s.columns, ∃ b ∈ s.boards, b.id = c.boardId)
    {boardId : String} (hfresh : ∀ b ∈ s.boards, b.id ≠ boardId) :
    ∀ c ∈ s.columns, c.boardId ≠ boardId := by
  intro c hc heq
  obtain ⟨b, hb, hbid⟩ := hfk c hc
  exact hfresh b hb (hbid.trans heq)

theorem pairwise_orders_snoc {cols : List ColumnRow} {d : ColumnRow}
    (hold : cols.Pairwise (fun c d => c.boardId = d.boardId → c.order ≠ d.order))
    (hcross : ∀ c ∈ cols, c.boardId = d.boardId → c.order ≠ d.order) :
    (cols ++ [d]).Pairwise (fun c d => c.boardId = d.boardId → c.order ≠ d.order) := by
  rw [List.pairwise_append]
  refine ⟨hold, List.pairwise_singleton _ _, fun a ha b hb => ?_⟩
  rcases List.mem_singleton.mp hb with rfl
  exact hcross a ha

theorem fk_snoc_board {s : Store} {r : BoardRow}
    (hfk : ∀ c ∈ s.columns, ∃ b ∈ s.boards, b.id = c.boardId) :
    ∀ c ∈ s.columns, ∃ b ∈ s.boards ++ [r], b.id = c.boardId := by
  intro c hc
  obtain ⟨b, hb, hbid⟩ := hfk c hc
  exact ⟨b, List.mem_append_left _ hb, hbid⟩

theorem storeInv_createBoard (s : Store) (boardId c0 c1 c2 : String) (now : Nat)
    (title? : Option String) (h : StoreInv s) :
    StoreInv (createBoard s boardId c0 c1 c2 now title?).2 := by
  obtain ⟨hcards, hfk, hpw⟩ := h
  simp only [createBoard]
  split
  · exact ⟨hcards, hfk, hpw⟩
  · rename_i s1 heq1
    obtain ⟨rfl, hfresh⟩ := boardCreate_ok_inv heq1
    have horph : ∀ c ∈ s.columns, c.boardId ≠ boardId :=
      no_columns_of_fresh_board hfk hfresh
    have inv1 : StoreInv { s with boards := s.boards ++ [{ id := boardId, title := defaultTitle title?, createdAt := now }] } :=
      ⟨hcards, fk_snoc_board hfk, hpw⟩
    split
    · exact inv1
    · rename_i s2 heq2
      obtain ⟨rfl, hcid0, hfk0⟩ := columnCreate_ok_inv heq2
      have inv2 : StoreInv
          { boards := s.boards ++ [{ id := boardId, title := defaultTitle title?, createdAt := now }],
            columns := s.columns ++ [{ id := c0, title := "Todo", order := 0, boardId := boardId }],
            cards := s.cards } := by
        refine ⟨hcards, ?_, ?_⟩
        · intro c hc
          rcases List.mem_append.mp hc with h | h
          · exact fk_snoc_board hfk c h
          · rcases List.mem_singleton.mp h with rfl
            exact ⟨_, List.mem_append_right _ (List.mem_singleton_self _), rfl⟩
        · exact pairwise_orders_snoc hpw fun c hc hbd => absurd hbd (horph c hc)
      split
      · exact inv2
      · rename_i s3 heq3
        obtain ⟨rfl, hcid1, hfk1⟩ := columnCreate_ok_inv heq3
        have hcols2 : ∀ c ∈ s.columns ++ [({ id := c0, title := "Todo", order := 0, boardId := boardId } : ColumnRow)],
            c.boardId = boardId → c.order ≠ (1 : Int) := by
          intro c hc hbd
          rcases List.mem_append.mp hc with h | h
          · exact absurd hbd (horph c h)
          · rcases List.mem_singleton.mp h with rfl
            simp
        have inv3 : StoreInv
            { boards := s.boards ++ [{ id := boardId, title := defaultTitle title?, createdAt := now }],
              columns := (s.columns ++ [{ id := c0, title := "Todo", order := 0, boardId := boardId }]) ++
                [{ id := c1, title := "In Progress", order := 1, boardId := boardId }],
              cards := s.cards } := by
          refine ⟨hcards, ?_, ?_⟩
          · intro c hc
            rcases List.mem_append.mp hc with h | h
            · exact inv2.2.1 c h
            · rcases List.mem_singleton.mp h with rfl
              exact ⟨_, List.mem_append_right _ (List.mem_singleton_self _), rfl⟩
          · exact pairwise_orders_snoc inv2.2.2 hcols2
        split
        · exact inv3
        · rename_i s4 heq4
          obtain ⟨rfl, hcid2, hfk2⟩ := columnCreate_ok_inv heq4
          have hcols3 : ∀ c ∈ (s.columns ++ [({ id := c0, title := "Todo", order := 0, boardId := boardId } : ColumnRow)]) ++
              [({ id := c1, title := "In Progress", order := 1, boardId := boardId } : ColumnRow)],
              c.boardId = boardId → c.order ≠ (2 : Int) := by
            intro c hc hbd
            rcases List.mem_append.mp hc with h | h
            · rcases List.mem_append.mp h with h' | h'
              · exact absurd hbd (horph c h')
              · rcases List.mem_singleton.mp h' with rfl
                simp
            · rcases List.mem_singleton.mp h with rfl
              simp
          refine ⟨hcards, ?_, pairwise_orders_snoc inv3.2.2 hcols3⟩
          intro c hc
          rcases List.mem_append.mp hc with h | h
          · exact inv3.2.1 c h
          · rcases List.mem_singleton.mp h with rfl
            exact ⟨_, List.mem_append_right _ (List.mem_singleton_self _), rfl⟩

theorem storeInv_reachable {s : Store} (h : Reachable s) : StoreInv s := by
  induction h with
  | empty => exact ⟨rfl, by simp [emptyStore], by simp [emptyStore]⟩
  | create boardId c0 c1 c2 now title? _ ih =>
    exact storeInv_createBoard _ boardId c0 c1 c2 now title? ih
  | update id d _ ih => exact ih

/-! ### The claims -/

/-- Claim C1.  The claim says `updateBoard` reconciles storage to any valid
desired tree for any existing board.  On the code this fails: `updateBoard`
is an unimplemented stub.  At the concrete failing input below — an existing
board titled "Original Title" and the valid desired tree
`{title: "Updated Title", columns: []}` — the call throws the generic
not-implemented error, writes nothing, and a subsequent fetch still returns
the old title, not the desired tree.  This contradicts the service's own
test suite (`board.service.test.ts`, `updateBoard()` block), so the claim
is recorded as a code bug. -/
theorem c1_update_board_is_unimplemented_stub :
    (updateBoard (createBoard emptyStore "b" "col0" "col1" "col2" 0 (some "Original Title")).2
        "b" { title := "Updated Title", columns := [] }).1 =
      .error { message := "Not implemented yet - will be driven by tests" } ∧
    (updateBoard (createBoard emptyStore "b" "col0" "col1" "col2" 0 (some "Original Title")).2
        "b" { title := "Updated Title", columns := [] }).2 =
      (createBoard emptyStore "b" "col0" "col1" "col2" 0 (some "Original Title")).2 ∧
    ((getBoardById
        (updateBoard (createBoard emptyStore "b" "col0" "col1" "col2" 0 (some "Original Title")).2
          "b" { title := "Updated Title", columns := [] }).2 "b").map
      (fun b => b.title)) = some "Original Title" := by
  refine ⟨rfl, rfl, ?_⟩
  decide

/-- Claim C2: whenever `updateBoard` fails, the previously persisted tree is
left fully intact — a fetch after the failed call returns exactly what a
fetch before it would.  This holds (trivially so: the stub returns an error
before performing any storage write, so the state is unchanged). -/
theorem c2_failed_replace_preserves_tree (s : Store) (id q : String)
    (d : BoardUpdateData) (e : JsError)
    (h : (updateBoard s id d).1 = .error e) :
    getBoardById (updateBoard s id d).2 q = getBoardById s q := rfl

/-- Witness for C2 at a concrete input. -/
theorem c2_failed_replace_preserves_tree_witness :
    getBoardById (updateBoard emptyStore "b" { title := "t", columns := [] }).2 "b" =
      getBoardById emptyStore "b" :=
  c2_failed_replace_preserves_tree emptyStore "b" "b" { title := "t", columns := [] }
    { message := notImplementedMessage } rfl

/-- Claim C3.  The claim says `updateBoard` on a missing board id fails with
a typed, caller-recoverable NotFound outcome.  On the code this fails: for a
board id that does not exist (the fetch below confirms it does not), the
call throws the same generic catastrophic
`Error('Not implemented yet - will be driven by tests')` as every other
call, distinguishing nothing.  The service's own test expects a
`'Board not found'` rejection here, so the claim is recorded as a code
bug. -/
theorem c3_missing_board_gets_generic_error :
    getBoardById emptyStore "non-existent-id" = none ∧
    updateBoard emptyStore "non-existent-id" { title := "Test", columns := [] } =
      (.error { message := "Not implemented yet - will be driven by tests" }, emptyStore) :=
  ⟨rfl, rfl⟩

/-- Claim C4: for every creation request (any prior store, any fresh minted
ids, any timestamp, any title option), fetching the board `createBoard`
returns yields a board whose title is the supplied title when one is given
and "My Kanban Board" when the title is omitted or empty, with exactly the
three columns "Todo", "In Progress", "Done" at orders 0, 1, 2, each with
zero cards. -/
theorem c4_create_fetch_roundtrip (s : Store) (boardId c0 c1 c2 : String)
    (now : Nat) (title? : Option String)
    (hb : ∀ b ∈ s.boards, b.id ≠ boardId)
    (hc0 : ∀ c ∈ s.columns, c.id ≠ c0)
    (hc1 : ∀ c ∈ s.columns, c.id ≠ c1)
    (hc2 : ∀ c ∈ s.columns, c.id ≠ c2)
    (h01 : c0 ≠ c1) (h02 : c0 ≠ c2) (h12 : c1 ≠ c2)
    (horph : ∀ c ∈ s.columns, c.boardId ≠ boardId)
    (hk0 : ∀ k ∈ s.cards, k.columnId ≠ c0)
    (hk1 : ∀ k ∈ s.cards, k.columnId ≠ c1)
    (hk2 : ∀ k ∈ s.cards, k.columnId ≠ c2) :
    (createBoard s boardId c0 c1 c2 now title?).1 =
      .ok { id := boardId, title := defaultTitle title?, createdAt := now } ∧
    getBoardById (createBoard s boardId c0 c1 c2 now title?).2 boardId =
      some { id := boardId, title := defaultTitle title?, createdAt := now,
             columns := [{ id := c0, title := "Todo", order := 0, cards := [] },
                         { id := c1, title := "In Progress", order := 1, cards := [] },
                         { id := c2, title := "Done", order := 2, cards := [] }] } ∧
    (∀ t, title? = some t → t ≠ "" → defaultTitle title? = t) ∧
    ((title? = none ∨ title? = some "") → defaultTitle title? = "My Kanban Board") := by
  have hcb := createBoard_ok s boardId c0 c1 c2 now title? hb hc0 hc1 hc2 h01 h02 h12
  refine ⟨by rw [hcb], ?_, ?_, ?_⟩
  · rw [hcb]
    have hfind : ((s.boards ++ [({ id := boardId, title := defaultTitle title?, createdAt := now } : BoardRow)]).find?
        fun b => b.id == boardId) =
        some { id := boardId, title := defaultTitle title?, createdAt := now } :=
      find?_field_append_last _ hb rfl
    simp only [getBoardById, hfind, List.filter_append, filter_field_eq_nil horph]
    simp [filter_field_eq_nil hk0, filter_field_eq_nil hk1, filter_field_eq_nil hk2,
          sortByOrder, insertByOrder]
  · intro t ht hne
    subst ht
    simp [defaultTitle, hne]
  · rintro (rfl | rfl) <;> simp [defaultTitle]

/-- Witness for C4 at a concrete input: a board created in the empty store
with title "X". -/
theorem c4_create_fetch_roundtrip_witness :
    (createBoard emptyStore "b" "col0" "col1" "col2" 7 (some "X")).1 =
      .ok { id := "b", title := defaultTitle (some "X"), createdAt := 7 } ∧
    getBoardById (createBoard emptyStore "b" "col0" "col1" "col2" 7 (some "X")).2 "b" =
      some { id := "b", title := defaultTitle (some "X"), createdAt := 7,
             columns := [{ id := "col0", title := "Todo", order := 0, cards := [] },
                         { id := "col1", title := "In Progress", order := 1, cards := [] },
                         { id := "col2", title := "Done", order := 2, cards := [] }] } ∧
    (∀ t, (some "X" : Option String) = some t → t ≠ "" → defaultTitle (some "X") = t) ∧
    (((some "X" : Option String) = none ∨ (some "X" : Option String) = some "") →
      defaultTitle (some "X") = "My Kanban Board") :=
  c4_create_fetch_roundtrip emptyStore "b" "col0" "col1" "col2" 7 (some "X")
    (by simp [emptyStore]) (by simp [emptyStore]) (by simp [emptyStore])
    (by simp [emptyStore]) (by decide) (by decide) (by decide)
    (by simp [emptyStore]) (by simp [emptyStore]) (by simp [emptyStore])
    (by simp [emptyStore])

/-- Counterexample to claim C5.  The claim says a supplied title longer than
100 characters makes `createBoard` fail with a ValidationError and create no
board.  At the concrete 101-character title `longTitle`, `createBoard`
succeeds and the board is stored with that exact title: the service performs
no length validation at all. -/
theorem c5_long_title_rejected_cex :
    100 < longTitle.length ∧
    (createBoard emptyStore "b" "col0" "col1" "col2" 0 (some longTitle)).1 =
      .ok { id := "b", title := longTitle, createdAt := 0 } ∧
    ((createBoard emptyStore "b" "col0" "col1" "col2" 0 (some longTitle)).2.boards.map
      (fun b => b.title)) = [longTitle] :=
  ⟨by decide, rfl, rfl⟩

/-- Claim C5 as amended: `createBoard` performs no title-length validation —
a supplied title longer than 100 characters is accepted, the call succeeds,
and the board row is stored with that exact title. -/
theorem c5_long_title_accepted (s : Store) (boardId c0 c1 c2 : String)
    (now : Nat) (t : String)
    (hb : ∀ b ∈ s.boards, b.id ≠ boardId)
    (hc0 : ∀ c ∈ s.columns, c.id ≠ c0)
    (hc1 : ∀ c ∈ s.columns, c.id ≠ c1)
    (hc2 : ∀ c ∈ s.columns, c.id ≠ c2)
    (h01 : c0 ≠ c1) (h02 : c0 ≠ c2) (h12 : c1 ≠ c2)
    (hlen : 100 < t.length) :
    (createBoard s boardId c0 c1 c2 now (some t)).1 =
      .ok { id := boardId, title := t, createdAt := now } ∧
    (createBoard s boardId c0 c1 c2 now (some t)).2.boards =
      s.boards ++ [{ id := boardId, title := t, createdAt := now }] := by
  have hne : t ≠ "" := by
    intro h
    subst h
    simp at hlen
  have hdt : defaultTitle (some t) = t := by simp [defaultTitle, hne]
  have hcb := createBoard_ok s boardId c0 c1 c2 now (some t) hb hc0 hc1 hc2 h01 h02 h12
  rw [hdt] at hcb
  exact ⟨by rw [hcb], by rw [hcb]⟩

/-- Witness for the amended C5 at the concrete 101-character title. -/
theorem c5_long_title_accepted_witness :
    (createBoard emptyStore "b" "col0" "col1" "col2" 0 (some longTitle)).1 =
      .ok { id := "b", title := longTitle, createdAt := 0 } ∧
    (createBoard emptyStore "b" "col0" "col1" "col2" 0 (some longTitle)).2.boards =
      emptyStore.boards ++ [{ id := "b", title := longTitle, createdAt := 0 }] :=
  c5_long_title_accepted emptyStore "b" "col0" "col1" "col2" 0 longTitle
    (by simp [emptyStore]) (by simp [emptyStore]) (by simp [emptyStore])
    (by simp [emptyStore]) (by decide) (by decide) (by decide) (by decide)

/-- Counterexample to claim C6.  The claim says every `createBoard` call is
a single atomic transaction: either the board row and all three default
column rows are committed together, or none are.  In the concrete store
below a column with id "c1" already exists, so the second default-column
insert fails; yet the call leaves the new board row committed with exactly
one column — an intermediate state the claim says can never be
committed. -/
theorem c6_create_board_atomic_cex :
    (createBoard
        { boards := [{ id := "b0", title := "T", createdAt := 0 }],
          columns := [{ id := "c1", title := "X", order := 0, boardId := "b0" }],
          cards := [] } "b" "c0" "c1" "c2" 5 none).1 = .error .uniqueViolation ∧
    ((createBoard
        { boards := [{ id := "b0", title := "T", createdAt := 0 }],
          columns := [{ id := "c1", title := "X", order := 0, boardId := "b0" }],
          cards := [] } "b" "c0" "c1" "c2" 5 none).2.boards.map (fun b => b.id)) =
      ["b0", "b"] ∧
    (((createBoard
        { boards := [{ id := "b0", title := "T", createdAt := 0 }],
          columns := [{ id := "c1", title := "X", order := 0, boardId := "b0" }],
          cards := [] } "b" "c0" "c1" "c2" 5 none).2.columns.filter
        (fun c => c.boardId == "b")).map (fun c => c.id)) = ["c0"] :=
  ⟨rfl, rfl, rfl⟩

/-- Claim C6 as amended: `createBoard` is not executed as one transaction —
the board insert and the three column inserts are separate sequential
writes, so if the board insert succeeds and a later column insert fails
(here: the second default column's id already exists), the board row and
the columns inserted before the failure remain committed while the call
reports the error. -/
theorem c6_create_board_partial_commit (s : Store) (boardId c0 c1 c2 : String)
    (now : Nat) (title? : Option String)
    (hb : ∀ b ∈ s.boards, b.id ≠ boardId)
    (hc0 : ∀ c ∈ s.columns, c.id ≠ c0)
    (c : ColumnRow) (hm : c ∈ s.columns) (hdup : c.id = c1) :
    (createBoard s boardId c0 c1 c2 now title?).1 = .error .uniqueViolation ∧
    (createBoard s boardId c0 c1 c2 now title?).2 =
      { boards := s.boards ++ [{ id := boardId, title := defaultTitle title?, createdAt := now }],
        columns := s.columns ++ [{ id := c0, title := "Todo", order := 0, boardId := boardId }],
        cards := s.cards } := by
  have e1 := boardCreate_ok (r := { id := boardId, title := defaultTitle title?, createdAt := now }) hb
  have hmem : ({ id := boardId, title := defaultTitle title?, createdAt := now } : BoardRow) ∈
      s.boards ++ [{ id := boardId, title := defaultTitle title?, createdAt := now }] :=
    List.mem_append_right _ (List.mem_singleton_self _)
  have e2 : columnCreate
      { boards := s.boards ++ [{ id := boardId, title := defaultTitle title?, createdAt := now }],
        columns := s.columns, cards := s.cards }
      { id := c0, title := "Todo", order := 0, boardId := boardId } =
      .ok { boards := s.boards ++ [{ id := boardId, title := defaultTitle title?, createdAt := now }],
            columns := s.columns ++ [{ id := c0, title := "Todo", order := 0, boardId := boardId }],
            cards := s.cards } :=
    columnCreate_ok hc0 _ hmem rfl
  have e3 : columnCreate
      { boards := s.boards ++ [{ id := boardId, title := defaultTitle title?, createdAt := now }],
        columns := s.columns ++ [{ id := c0, title := "Todo", order := 0, boardId := boardId }],
        cards := s.cards }
      { id := c1, title := "In Progress", order := 1, boardId := boardId } =
      .error .uniqueViolation :=
    columnCreate_err_dup c (List.mem_append_left _ hm) hdup
  constructor <;> simp only [createBoard, e1, e2, e3]

/-- Witness for the amended C6 at the concrete store of the
counterexample. -/
theorem c6_create_board_partial_commit_witness :
    (createBoard
        { boards := [{ id := "b0", title := "T", createdAt := 0 }],
          columns := [{ id := "c1", title := "X", order := 0, boardId := "b0" }],
          cards := [] } "b" "c0" "c1" "c2" 5 none).1 = .error .uniqueViolation ∧
    (createBoard
        { boards := [{ id := "b0", title := "T", createdAt := 0 }],
          columns := [{ id := "c1", title := "X", order := 0, boardId := "b0" }],
          cards := [] } "b" "c0" "c1" "c2" 5 none).2 =
      { boards := [{ id := "b0", title := "T", createdAt := 0 }] ++
          [{ id := "b", title := defaultTitle none, createdAt := 5 }],
        columns := [{ id := "c1", title := "X", order := 0, boardId := "b0" }] ++
          [{ id := "c0", title := "Todo", order := 0, boardId := "b" }],
        cards := [] } :=
  c6_create_board_partial_commit
    { boards := [{ id := "b0", title := "T", createdAt := 0 }],
      columns := [{ id := "c1", title := "X", order := 0, boardId := "b0" }],
      cards := [] } "b" "c0" "c1" "c2" 5 none
    (by decide) (by decide)
    { id := "c1", title := "X", order := 0, boardId := "b0" }
    (by decide) (by decide)

/-- Claim C7: calling `updateBoard` twice in a row with the same tree leaves
the same persisted state as calling it once, as observed by `getBoardById`.
This holds (trivially so: the stub never writes, so both the single and the
double call leave the store exactly as it was). -/
theorem c7_replace_idempotent (s : Store) (id : String) (d : BoardUpdateData)
    (q : String) :
    (updateBoard (updateBoard s id d).2 id d).2 = (updateBoard s id d).2 ∧
    getBoardById (updateBoard (updateBoard s id d).2 id d).2 q =
      getBoardById (updateBoard s id d).2 q :=
  ⟨rfl, rfl⟩

/-- Claim C8: in every store state reachable through the public operations,
`order` values within each sibling set are pairwise distinct — any two
column rows of one board, and any two card rows of one column, differ in
`order`. -/
theorem c8_sibling_orders_distinct (s : Store) (h : Reachable s) :
    siblingOrdersDistinct s := by
  obtain ⟨hcards, _, hpw⟩ := storeInv_reachable h
  refine ⟨hpw, ?_⟩
  rw [hcards]
  exact List.Pairwise.nil

/-- Witness for C8 at a concrete reachable state: the store after one board
creation in the empty database. -/
theorem c8_sibling_orders_distinct_witness :
    siblingOrdersDistinct (createBoard emptyStore "b" "c0" "c1" "c2" 0 none).2 :=
  c8_sibling_orders_distinct _ (Reachable.create "b" "c0" "c1" "c2" 0 none Reachable.empty)

/-- Claim C9: whenever `getBoardById` returns a board, its columns are
sorted ascending by `order`, and within each column its cards are sorted
ascending by `order`. -/
theorem c9_fetch_sorted (s : Store) (id : String) (b : BoardData)
    (h : getBoardById s id = some b) :
    b.columns.Pairwise (fun x y => x.order ≤ y.order) ∧
    ∀ c ∈ b.columns, c.cards.Pairwise (fun x y => x.order ≤ y.order) := by
  cases hf : s.boards.find? (fun r => r.id == id) with
  | none =>
    simp only [getBoardById, hf] at h
    cases h
  | some r =>
    simp only [getBoardById, hf, Option.some_inj] at h
    subst h
    constructor
    · rw [List.pairwise_map]
      exact (pairwise_le_sortByOrder (fun c : ColumnRow => c.order)
        (s.columns.filter fun c => c.boardId == r.id)).imp fun hab => hab
    · intro c hc
      rw [List.mem_map] at hc
      obtain ⟨cr, _, rfl⟩ := hc
      rw [List.pairwise_map]
      exact (pairwise_le_sortByOrder (fun k : CardRow => k.order)
        (s.cards.filter fun k => k.columnId == cr.id)).imp fun hab => hab

/-- Witness for C9 at a concrete input: the tree fetched after one board
creation in the empty database. -/
theorem c9_fetch_sorted_witness :
    ([{ id := "c0", title := "Todo", order := 0, cards := [] },
      { id := "c1", title := "In Progress", order := 1, cards := [] },
      { id := "c2", title := "Done", order := 2, cards := [] }] : List ColumnData).Pairwise
        (fun x y => x.order ≤ y.order) ∧
    ∀ c ∈ ([{ id := "c0", title := "Todo", order := 0, cards := [] },
            { id := "c1", title := "In Progress", order := 1, cards := [] },
            { id := "c2", title := "Done", order := 2, cards := [] }] : List ColumnData),
      c.cards.Pairwise (fun x y => x.order ≤ y.order) :=
  c9_fetch_sorted (createBoard emptyStore "b" "c0" "c1" "c2" 0 none).2 "b"
    { id := "b", title := "My Kanban Board", createdAt := 0,
      columns := [{ id := "c0", title := "Todo", order := 0, cards := [] },
                  { id := "c1", title := "In Progress", order := 1, cards := [] },
                  { id := "c2", title := "Done", order := 2, cards := [] }] }
    (by rfl)

/-- Claim C10: `BoardService.updateBoard` unconditionally raises the
not-implemented error without reading or writing storage, so the state
after any call is the state before it. -/
theorem c10_update_board_always_throws_and_never_writes (s : Store) (id : String)
    (d : BoardUpdateData) :
    updateBoard s id d =
      (.error { message := "Not implemented yet - will be driven by tests" }, s) := rfl

end Kanban
